import Mathlib

/-!
Verification of the blockchain-study node core (Rust) against its
natural-language specification.  The Rust sources are shallowly embedded:
`usize` is modelled as `Nat` (with explicit wrapping `% 2^64` where the code
can underflow or overflow), `Vec<T>` as `List T`, `String` as `String`,
`Result<T, AppError>` as `Except AppError T`, and a function that can panic
(`unwrap` on a possibly-empty list) returns an `Option`.  ECDSA signature
verification over secp256k1 lives in an external crate, so it enters the
embedding as an explicit parameter `verify : String → String → String → Bool`
(address, message, signature), standing for parsing the hex public key and
DER signature and running `secp.verify_ecdsa`.
-/

namespace BC

/-! ## SHA-256 (concrete, executable)

The node hashes with the `sha2` crate's SHA-256 and prints the digest as
lowercase hex (`format!("{:x}", hasher.finalize())`).  We implement SHA-256
directly over byte lists so that transaction ids are fully concrete and the
embedding can be checked against the repository's own test vectors. -/

/-- Right rotation of a 32-bit word. -/
def rotr32 (x n : Nat) : Nat :=
  ((x >>> n) ||| (x <<< (32 - n))) % 4294967296

/-- The 64 SHA-256 round constants. -/
def shaK : List Nat :=
  [1116352408, 1899447441, 3049323471, 3921009573, 961987163,
   1508970993, 2453635748, 2870763221, 3624381080, 310598401,
   607225278, 1426881987, 1925078388, 2162078206, 2614888103,
   3248222580, 3835390401, 4022224774, 264347078, 604807628,
   770255983, 1249150122, 1555081692, 1996064986, 2554220882,
   2821834349, 2952996808, 3210313671, 3336571891, 3584528711,
   113926993, 338241895, 666307205, 773529912, 1294757372,
   1396182291, 1695183700, 1986661051, 2177026350, 2456956037,
   2730485921, 2820302411, 3259730800, 3345764771, 3516065817,
   3600352804, 4094571909, 275423344, 430227734, 506948616,
   659060556, 883997877, 958139571, 1322822218, 1537002063,
   1747873779, 1955562222, 2024104815, 2227730452, 2361852424,
   2428436474, 2756734187, 3204031479, 3329325298]

/-- The SHA-256 initial hash state. -/
def shaH0 : List Nat :=
  [1779033703, 3144134277, 1013904242, 2773480762, 1359893119,
   2600822924, 528734635, 1541459225]

/-- Extend a 16-word message block to the 64-word schedule; the counter is the
number of words still to append. -/
def shaExtend : Nat → List Nat → List Nat
  | 0, w => w
  | n + 1, w =>
    let len := w.length
    let w15 := w.getD (len - 15) 0
    let w2 := w.getD (len - 2) 0
    let s0 := (rotr32 w15 7) ^^^ (rotr32 w15 18) ^^^ (w15 >>> 3)
    let s1 := (rotr32 w2 17) ^^^ (rotr32 w2 19) ^^^ (w2 >>> 10)
    shaExtend n
      (w ++ [(w.getD (len - 16) 0 + s0 + w.getD (len - 7) 0 + s1) % 4294967296])

/-- One SHA-256 compression round over the 8-word working state. -/
def shaRound (st : List Nat) (kw : Nat × Nat) : List Nat :=
  let a := st.getD 0 0
  let b := st.getD 1 0
  let c := st.getD 2 0
  let d := st.getD 3 0
  let e := st.getD 4 0
  let f := st.getD 5 0
  let g := st.getD 6 0
  let h := st.getD 7 0
  let s1 := (rotr32 e 6) ^^^ (rotr32 e 11) ^^^ (rotr32 e 25)
  let ch := (e &&& f) ^^^ ((e ^^^ 4294967295) &&& g)
  let temp1 := (h + s1 + ch + kw.1 + kw.2) % 4294967296
  let s0 := (rotr32 a 2) ^^^ (rotr32 a 13) ^^^ (rotr32 a 22)
  let maj := (a &&& b) ^^^ (a &&& c) ^^^ (b &&& c)
  let temp2 := (s0 + maj) % 4294967296
  [(temp1 + temp2) % 4294967296, a, b, c, (d + temp1) % 4294967296, e, f, g]

/-- Compress one 64-byte chunk into the running 8-word state. -/
def shaChunk (st : List Nat) (chunk : List Nat) : List Nat :=
  let w0 := (List.range 16).map fun i =>
    chunk.getD (4 * i) 0 * 16777216 + chunk.getD (4 * i + 1) 0 * 65536 +
    chunk.getD (4 * i + 2) 0 * 256 + chunk.getD (4 * i + 3) 0
  let w := shaExtend 48 w0
  let fin := (shaK.zip w).foldl shaRound st
  (st.zip fin).map fun p => (p.1 + p.2) % 4294967296

/-- Fold the compression function over all 64-byte chunks; the fuel argument
is an upper bound on the number of chunks (any bound ≥ length/64 works). -/
def shaChunks : Nat → List Nat → List Nat → List Nat
  | 0, st, _ => st
  | _ + 1, st, [] => st
  | fuel + 1, st, msg => shaChunks fuel (shaChunk st (msg.take 64)) (msg.drop 64)

/-- SHA-256 padding: append 0x80, zero bytes to 56 mod 64, and the bit length
as 8 big-endian bytes. -/
def shaPad (msg : List Nat) : List Nat :=
  let len := msg.length
  let zeros := (64 + 55 - (len % 64)) % 64
  msg ++ [128] ++ List.replicate zeros 0 ++
    (List.range 8).map fun i => (len * 8) / (256 ^ (7 - i)) % 256

/-- The eight 32-bit digest words of a byte message. -/
def sha256Words (msg : List Nat) : List Nat :=
  let padded := shaPad msg
  shaChunks padded.length shaH0 padded

/-- The lowercase hex character for a nibble: digits from code point 48,
letters from code point 97. -/
def hexChar (d : Nat) : Char :=
  if d < 10 then Char.ofNat (48 + d) else Char.ofNat (87 + d)

/-- A 32-bit word as 8 lowercase hex characters. -/
def natToHex32 (n : Nat) : List Char :=
  (List.range 8).map fun i => hexChar (n / 16 ^ (7 - i) % 16)

/-- The UTF-8 bytes of a string; every string the node hashes is ASCII
(hex digests, compressed public keys, decimal numbers), for which the UTF-8
bytes are exactly the code points. -/
def strBytes (s : String) : List Nat :=
  s.toList.map Char.toNat

/-- `format!("{:x}", Sha256::digest(s))`: the lowercase 64-character hex
SHA-256 digest of a string. -/
def sha256hex (s : String) : String :=
  String.mk ((sha256Words (strBytes s)).flatMap natToHex32)

/-! ## Data model (src/transaction.rs, src/block.rs, src/errors.rs)

Structural equality (`DecidableEq`) models the derived `PartialEq` of the
transaction types; `Block` implements `PartialEq` by hand, embedded below as
`Block.beq`. -/

/-- `transaction.rs`: `UnspentTxOut { tx_out_id, tx_out_index, address, amount }`. -/
structure UnspentTxOut where
  tx_out_id : String
  tx_out_index : Nat
  address : String
  amount : Nat
deriving DecidableEq, Repr

/-- `transaction.rs`: `TxIn { tx_out_id, tx_out_index, signature }`. -/
structure TxIn where
  tx_out_id : String
  tx_out_index : Nat
  signature : String
deriving DecidableEq, Repr

/-- `transaction.rs`: `TxOut { address, amount }`. -/
structure TxOut where
  address : String
  amount : Nat
deriving DecidableEq, Repr

/-- `transaction.rs`: `Transaction { id, tx_ins, tx_outs }`. -/
structure Transaction where
  id : String
  tx_ins : List TxIn
  tx_outs : List TxOut
deriving DecidableEq, Repr

/-- `errors.rs`: `AppError`, identified by its numeric code. -/
structure AppError where
  code : Nat
deriving DecidableEq, Repr

/-- `transaction.rs` `COINBASE_AMOUNT`. -/
def COINBASE_AMOUNT : Nat := 50

/-! ## Transaction engine (src/transaction.rs) -/

/-- `get_transaction_id`: SHA-256 hex of the inputs' `(tx_out_id, decimal
tx_out_index)` strings folded together, followed by the outputs'
`(address, decimal amount)` strings. -/
def get_transaction_id (tx_ins : List TxIn) (tx_outs : List TxOut) : String :=
  let tx_in_content :=
    (tx_ins.map fun t => t.tx_out_id ++ toString t.tx_out_index).foldl
      (fun total content => total ++ content) ""
  let tx_out_content :=
    (tx_outs.map fun o => o.address ++ toString o.amount).foldl
      (fun total content => total ++ content) ""
  sha256hex (tx_in_content ++ tx_out_content)

/-- `Transaction::get_transaction_id`. -/
def Transaction.getTransactionId (t : Transaction) : String :=
  get_transaction_id t.tx_ins t.tx_outs

/-- `Transaction::generate`. -/
def Transaction.generate (tx_ins : List TxIn) (tx_outs : List TxOut) : Transaction :=
  ⟨get_transaction_id tx_ins tx_outs, tx_ins, tx_outs⟩

/-- An ECDSA verifier: `verify address message signature` stands for parsing
`address` as a secp256k1 public key and `signature` as a DER signature and
running `secp.verify_ecdsa` on the SHA-256 message derived from `message`.
The crypto lives in the external `secp256k1` crate, so the embedding keeps it
as a parameter. -/
abbrev Verifier := String → String → String → Bool

/-- `get_is_valid_tx_in`: the referenced unspent output is looked up by
`tx_out_id` **only** (`find` compares just `u_tx_o.tx_out_id`), and its
address must verify the input's signature over the transaction's stored id. -/
def get_is_valid_tx_in (verify : Verifier) (tx_in : TxIn) (transaction : Transaction)
    (unspent_tx_outs : List UnspentTxOut) : Bool :=
  match unspent_tx_outs.find? (fun u => u.tx_out_id == tx_in.tx_out_id) with
  | some referenced => verify referenced.address transaction.id tx_in.signature
  | none => false

/-- `find_unspent_tx_out`: first entry matching both `tx_out_id` and
`tx_out_index`. -/
def find_unspent_tx_out (transaction_id : String) (index : Nat)
    (unspent_tx_outs : List UnspentTxOut) : Option UnspentTxOut :=
  unspent_tx_outs.find? fun u => u.tx_out_id == transaction_id && u.tx_out_index == index

/-- `get_tx_in_amount`: amount of the `(tx_out_id, tx_out_index)`-matching
entry, `0` when absent. -/
def get_tx_in_amount (tx_in : TxIn) (unspent_tx_outs : List UnspentTxOut) : Nat :=
  match find_unspent_tx_out tx_in.tx_out_id tx_in.tx_out_index unspent_tx_outs with
  | some u => u.amount
  | none => 0

/-- `get_is_valid_transaction`. -/
def get_is_valid_transaction (verify : Verifier) (transaction : Transaction)
    (unspent_tx_outs : List UnspentTxOut) : Bool :=
  if ¬ (transaction.getTransactionId == transaction.id) then false
  else if transaction.tx_ins.any
      (fun tx_in => ¬ get_is_valid_tx_in verify tx_in transaction unspent_tx_outs) then false
  else
    let total_tx_in_values : Nat :=
      (transaction.tx_ins.map fun tx_in => get_tx_in_amount tx_in unspent_tx_outs).foldl
        (fun sum amount => sum + amount) 0
    let total_tx_out_values : Nat :=
      (transaction.tx_outs.map fun tx_out => tx_out.amount).foldl
        (fun sum amount => sum + amount) 0
    if total_tx_out_values ≠ total_tx_in_values then false
    else true

/-- `get_is_valid_coinbase_tx` (the argument is `Option<&Transaction>`). -/
def get_is_valid_coinbase_tx (transaction : Option Transaction) (block_index : Nat) : Bool :=
  match transaction with
  | none => false
  | some t =>
    if ¬ (t.getTransactionId == t.id) then false
    else if t.tx_ins.length ≠ 1 then false
    else match t.tx_ins.head? with
      | none => false
      | some tx_in =>
        if tx_in.tx_out_index ≠ block_index then false
        else if t.tx_outs.length ≠ 1 then false
        else match t.tx_outs.head? with
          | none => false
          | some tx_out => if tx_out.amount ≠ COINBASE_AMOUNT then false else true

/-- `has_duplicates`: the source folds the inputs into a `HashMap` counting
occurrences of the key `format!("{}{}", tx_out_id, tx_out_index)` and tests
whether any count exceeds 1; counting occurrences of each key in the list is
the same multiset test, stated without the intermediate map. -/
def has_duplicates (tx_ins : List TxIn) : Bool :=
  let keys := tx_ins.map fun t => t.tx_out_id ++ toString t.tx_out_index
  keys.any fun k => 1 < keys.count k

/-- `get_is_valid_block_transactions`. -/
def get_is_valid_block_transactions (verify : Verifier) (transactions : List Transaction)
    (unspent_tx_outs : List UnspentTxOut) (block_index : Nat) : Bool :=
  if ¬ get_is_valid_coinbase_tx (transactions.head?) block_index then false
  else
    let tx_ins := transactions.flatMap fun tx => tx.tx_ins
    if has_duplicates tx_ins then false
    else
      ((transactions.drop 1).map fun tx =>
        get_is_valid_transaction verify tx unspent_tx_outs).all fun valid => valid

/-- `update_unspent_tx_outs`. -/
def update_unspent_tx_outs (new_transactions : List Transaction)
    (unspent_tx_outs : List UnspentTxOut) : List UnspentTxOut :=
  let new_unspent_tx_outs := new_transactions.flatMap fun t =>
    t.tx_outs.enum.map fun p => UnspentTxOut.mk t.id p.1 p.2.address p.2.amount
  let consumed_tx_outs := (new_transactions.flatMap fun t => t.tx_ins).map fun tx_in =>
    UnspentTxOut.mk tx_in.tx_out_id tx_in.tx_out_index "" 0
  (unspent_tx_outs.filter fun u =>
    (find_unspent_tx_out u.tx_out_id u.tx_out_index consumed_tx_outs).isNone) ++
    new_unspent_tx_outs

/-- `get_coinbase_transaction`. -/
def get_coinbase_transaction (address : String) (block_index : Nat) : Transaction :=
  Transaction.generate [TxIn.mk "" block_index ""] [TxOut.mk address COINBASE_AMOUNT]

/-! ## Mempool (src/transaction_pool.rs) -/

/-- `get_tx_pool_ins`. -/
def get_tx_pool_ins (transaction_pool : List Transaction) : List TxIn :=
  transaction_pool.flatMap fun tx => tx.tx_ins

/-- `has_tx_in`. -/
def has_tx_in (tx_in : TxIn) (unspent_tx_outs : List UnspentTxOut) : Bool :=
  unspent_tx_outs.any fun u =>
    u.tx_out_id == tx_in.tx_out_id && u.tx_out_index == tx_in.tx_out_index

/-- `update_transaction_pool`: drop every pool transaction one of whose
inputs no longer references a present unspent output. -/
def update_transaction_pool (transaction_pool : List Transaction)
    (unspent_tx_outs : List UnspentTxOut) : List Transaction :=
  let invalid_txs := transaction_pool.filter fun tx =>
    tx.tx_ins.any fun tx_in => ¬ has_tx_in tx_in unspent_tx_outs
  if invalid_txs.length == 0 then transaction_pool
  else transaction_pool.filter fun tx => invalid_txs.all fun x => ¬ (x == tx)

/-! ## Hash and proof-of-work utility (src/utils.rs) -/

/-- `to_binary`: one hex character as four binary characters (empty for a
non-hex character). -/
def to_binary (c : Char) : String :=
  match c with
  | '0' => "0000"
  | '1' => "0001"
  | '2' => "0010"
  | '3' => "0011"
  | '4' => "0100"
  | '5' => "0101"
  | '6' => "0110"
  | '7' => "0111"
  | '8' => "1000"
  | '9' => "1001"
  | 'a' => "1010"
  | 'b' => "1011"
  | 'c' => "1100"
  | 'd' => "1101"
  | 'e' => "1110"
  | 'f' => "1111"
  | _ => ""

/-- `convert_to_binary_from_hex`. -/
def convert_to_binary_from_hex (hex : String) : String :=
  String.join (hex.toList.map to_binary)

/-- `get_is_hash_matches_difficulty`: the binary expansion starts with
`difficulty` zero characters. -/
def get_is_hash_matches_difficulty (hash : String) (difficulty : Nat) : Bool :=
  (convert_to_binary_from_hex hash).startsWith (String.mk (List.replicate difficulty '0'))

/-! ## Chain engine (src/block.rs) -/

/-- `block.rs`: `Block`. -/
structure Block where
  index : Nat
  hash : String
  previous_hash : String
  timestamp : Nat
  data : List Transaction
  difficulty : Nat
  nonce : Nat
deriving DecidableEq, Repr

/-- `BLOCK_GENERATION_INTERVAL`. -/
def BLOCK_GENERATION_INTERVAL : Nat := 10

/-- `DIFFICULTY_ADJUSTMENT_INTERVAL`. -/
def DIFFICULTY_ADJUSTMENT_INTERVAL : Nat := 10

/-- `TIMESTAMP_INTERVAL`. -/
def TIMESTAMP_INTERVAL : Nat := 60

/-- `2^64`, the modulus of `usize` arithmetic on the 64-bit targets the node
is built for. -/
def USIZE_MOD : Nat := 18446744073709551616

/-- Wrapping `usize` subtraction: the release-build semantics of `a - b`
(debug builds panic on underflow instead). -/
def usizeSub (a b : Nat) : Nat :=
  (a % USIZE_MOD + (USIZE_MOD - b % USIZE_MOD)) % USIZE_MOD

/-- serde_json string literal; every string the node serializes for hashing
is plain ASCII hex, so no JSON escaping applies. -/
def jsonStr (s : String) : String := "\"" ++ s ++ "\""

/-- serde_json array literal. -/
def jsonArr (elems : List String) : String :=
  "[" ++ String.intercalate "," elems ++ "]"

/-- serde_json encoding of a `TxIn` (fields in declaration order). -/
def txInJson (i : TxIn) : String :=
  "\x7b\"tx_out_id\":" ++ jsonStr i.tx_out_id ++ ",\"tx_out_index\":" ++
    toString i.tx_out_index ++ ",\"signature\":" ++ jsonStr i.signature ++ "\x7d"

/-- serde_json encoding of a `TxOut` (fields in declaration order). -/
def txOutJson (o : TxOut) : String :=
  "\x7b\"address\":" ++ jsonStr o.address ++ ",\"amount\":" ++ toString o.amount ++ "\x7d"

/-- serde_json encoding of a `Transaction` (fields in declaration order). -/
def txJson (t : Transaction) : String :=
  "\x7b\"id\":" ++ jsonStr t.id ++ ",\"tx_ins\":" ++ jsonArr (t.tx_ins.map txInJson) ++
    ",\"tx_outs\":" ++ jsonArr (t.tx_outs.map txOutJson) ++ "\x7d"

/-- `serde_json::to_string(&data)` for the block's transaction vector. -/
def jsonEncodeTransactions (data : List Transaction) : String :=
  jsonArr (data.map txJson)

/-- `calculate_hash`. -/
def calculate_hash (index : Nat) (previous_hash : String) (timestamp : Nat)
    (data : List Transaction) (difficulty : Nat) (nonce : Nat) : String :=
  sha256hex (toString index ++ previous_hash ++ toString timestamp ++
    jsonEncodeTransactions data ++ toString difficulty ++ toString nonce)

/-- `Block::get_calculated_hash`. -/
def Block.getCalculatedHash (b : Block) : String :=
  calculate_hash b.index b.previous_hash b.timestamp b.data b.difficulty b.nonce

/-- `Block::get_is_valid_structure`. -/
def Block.getIsValidStructure (b : Block) : Bool :=
  !b.hash.isEmpty && !b.previous_hash.isEmpty

/-- `Block::get_is_valid_hash`. -/
def Block.getIsValidHash (b : Block) : Bool :=
  if ¬ (b.getCalculatedHash == b.hash) then false
  else if ¬ get_is_hash_matches_difficulty b.hash b.difficulty then false
  else true

/-- The hand-written `impl PartialEq for Block`: compares `index`, `hash`,
`previous_hash`, `timestamp` and `data` — not `difficulty` or `nonce`. -/
def Block.beq (a b : Block) : Bool :=
  a.index == b.index && a.hash == b.hash && a.previous_hash == b.previous_hash &&
    a.timestamp == b.timestamp && a.data == b.data

/-- `get_is_valid_timestamp`: `usize` subtraction of `TIMESTAMP_INTERVAL`
from the previous timestamp and from the new timestamp, modelled with
release-build wrapping semantics; `now` stands for `Utc::now().timestamp()`. -/
def get_is_valid_timestamp (now : Nat) (new_block previous_block : Block) : Bool :=
  (usizeSub previous_block.timestamp TIMESTAMP_INTERVAL < new_block.timestamp % USIZE_MOD) &&
    (usizeSub new_block.timestamp TIMESTAMP_INTERVAL < now % USIZE_MOD)

/-- `get_is_valid_new_block`. -/
def get_is_valid_new_block (now : Nat) (new_block previous_block : Block) : Bool :=
  if ¬ new_block.getIsValidStructure then false
  else if previous_block.index + 1 ≠ new_block.index then false
  else if previous_block.hash ≠ new_block.previous_hash then false
  else if ¬ get_is_valid_timestamp now new_block previous_block then false
  else if ¬ new_block.getIsValidHash then false
  else true

/-- `get_is_valid_chain`: the first element must equal the genesis under
`Block`'s `PartialEq`, and every adjacent window must validate. -/
def get_is_valid_chain (now : Nat) (genesis_block : Block) (blockchain : List Block) : Bool :=
  match blockchain.head? with
  | none => false
  | some first =>
    if ¬ Block.beq genesis_block first then false
    else if blockchain.length == 1 then true
    else (blockchain.zip (blockchain.drop 1)).all fun w =>
      get_is_valid_new_block now w.2 w.1

/-- `get_accumulated_difficulty`: `fold(0, |total: i32, d| total + 2_i32.pow(d))`.
Modelled over `Int`; an `i32` overflow (difficulty ≥ 31 or a huge chain)
panics in debug builds and is outside the modelled domain. -/
def get_accumulated_difficulty (blockchain : List Block) : Int :=
  (blockchain.map fun b => b.difficulty).foldl
    (fun total difficulty => total + (2 : Int) ^ difficulty) 0

/-- `get_latest_block`: `blockchain.last().unwrap()`; `none` models the panic
on an empty chain. -/
def get_latest_block (blockchain : List Block) : Option Block :=
  blockchain.getLast?

/-- Modelled from the spec: `process_transactions` is imported from
`crate::transaction` in `block.rs` but its definition is absent from the
sources. Spec §4.2 (`apply_block`) specifies it: validate that position 0 is
a valid coinbase, that no input key repeats within the block, and that every
non-coinbase transaction validates against the UTXO set — exactly the in-src
`get_is_valid_block_transactions` — and on success return the applied UTXO
set, exactly the in-src `update_unspent_tx_outs`; on failure return an error
(the error code is not pinned down by the spec). -/
def process_transactions (verify : Verifier) (new_transactions : List Transaction)
    (unspent_tx_outs : List UnspentTxOut) (block_index : Nat) :
    Except AppError (List UnspentTxOut) :=
  if get_is_valid_block_transactions verify new_transactions unspent_tx_outs block_index then
    Except.ok (update_unspent_tx_outs new_transactions unspent_tx_outs)
  else
    Except.error (AppError.mk 1001)

/-- The three mutable cells `add_block` works on. -/
structure NodeState where
  blockchain : List Block
  unspent_tx_outs : List UnspentTxOut
  transaction_pool : List Transaction
deriving DecidableEq, Repr

/-- `add_block`, as a function from the borrowed state to the result and the
state after the call; `none` models the `get_latest_block` panic on an empty
chain. On the error paths the code performs no mutation, so the input state
is returned unchanged. -/
def add_block (verify : Verifier) (now : Nat) (st : NodeState) (new_block : Block) :
    Option (Except AppError Unit × NodeState) :=
  match get_latest_block st.blockchain with
  | none => none
  | some latest =>
    if ¬ get_is_valid_new_block now new_block latest then
      some (Except.error (AppError.mk 1000), st)
    else
      match process_transactions verify new_block.data st.unspent_tx_outs new_block.index with
      | Except.error e => some (Except.error e, st)
      | Except.ok processed =>
        some (Except.ok (),
          ⟨st.blockchain ++ [new_block], processed,
            update_transaction_pool st.transaction_pool processed⟩)

/-- `get_is_replace_chain`; `none` models the `blockchain[0]` panic on an
empty local chain. -/
def get_is_replace_chain (now : Nat) (blockchain new_blockchain : List Block) : Option Bool :=
  match blockchain.head? with
  | none => none
  | some genesis =>
    some (get_is_valid_chain now genesis new_blockchain &&
      decide (get_accumulated_difficulty blockchain < get_accumulated_difficulty new_blockchain))

/-- `get_difficulty`; `none` models the panics (`last().unwrap()` on an empty
chain, `get(len - 10).unwrap()` when fewer than 10 blocks are present at an
adjustment index). Wrapping `usize` arithmetic is made explicit. -/
def get_difficulty (blockchain : List Block) : Option Nat :=
  match get_latest_block blockchain with
  | none => none
  | some latest_block =>
    if latest_block.index % DIFFICULTY_ADJUSTMENT_INTERVAL ≠ 0 ∨ latest_block.index = 0 then
      some latest_block.difficulty
    else
      match blockchain.get? (usizeSub blockchain.length DIFFICULTY_ADJUSTMENT_INTERVAL) with
      | none => none
      | some prev_adjustment_block =>
        let time_expected := BLOCK_GENERATION_INTERVAL * DIFFICULTY_ADJUSTMENT_INTERVAL
        let time_taken := usizeSub latest_block.timestamp prev_adjustment_block.timestamp
        some (if time_taken < time_expected / 2 then
                (prev_adjustment_block.difficulty + 1) % USIZE_MOD
              else if time_taken > time_expected * 2 then
                usizeSub prev_adjustment_block.difficulty 1
              else prev_adjustment_block.difficulty)

/-! ## Wallet input selection (src/wallet.rs) -/

/-- The `for` loop of `find_tx_outs_for_amount`, carrying the running sum and
the included prefix. -/
def find_tx_outs_go (amount : Nat) :
    List UnspentTxOut → Nat → List UnspentTxOut →
    Except AppError (List UnspentTxOut × Nat)
  | [], _, _ => Except.error (AppError.mk 2003)
  | u :: rest, current_amount, included =>
    let included' := included ++ [u]
    let current' := current_amount + u.amount
    if amount ≤ current' then Except.ok (included', current' - amount)
    else find_tx_outs_go amount rest current' included'

/-- `find_tx_outs_for_amount`: greedy selection in list order; error 2003 is
`insufficient funds`. -/
def find_tx_outs_for_amount (my_unspent_tx_outs : List UnspentTxOut) (amount : Nat) :
    Except AppError (List UnspentTxOut × Nat) :=
  find_tx_outs_go amount my_unspent_tx_outs 0 []

/-! ## Specification-side predicates

These follow the spec's words, to be compared with the source-derived
functions above. -/

/-- The spec's `validate_tx`: every input resolves to a present unspent
output under the primary key `(tx_out_id, tx_out_index)` whose address
verifies the signature over `tx.id`; the id matches its recomputation; the
amounts of the resolved outputs sum to the output total. -/
def validate_tx_spec (verify : Verifier) (tx : Transaction)
    (utxo : List UnspentTxOut) : Prop :=
  (∀ txIn ∈ tx.tx_ins, ∃ u ∈ utxo,
      u.tx_out_id = txIn.tx_out_id ∧ u.tx_out_index = txIn.tx_out_index ∧
      verify u.address tx.id txIn.signature = true) ∧
  tx.id = get_transaction_id tx.tx_ins tx.tx_outs ∧
  (tx.tx_ins.map fun txIn => get_tx_in_amount txIn utxo).sum =
    (tx.tx_outs.map fun txOut => txOut.amount).sum

/-- The amended `validate_tx`: as `validate_tx_spec`, except that the entry
whose address must verify the signature is the **first** entry matching the
input's `tx_out_id` alone — the index is ignored by the signature lookup
(only the amount summation resolves by the full primary key). -/
def validate_tx_amended (verify : Verifier) (tx : Transaction)
    (utxo : List UnspentTxOut) : Prop :=
  (∀ txIn ∈ tx.tx_ins, ∃ u,
      utxo.find? (fun v => v.tx_out_id == txIn.tx_out_id) = some u ∧
      verify u.address tx.id txIn.signature = true) ∧
  tx.id = get_transaction_id tx.tx_ins tx.tx_outs ∧
  (tx.tx_ins.map fun txIn => get_tx_in_amount txIn utxo).sum =
    (tx.tx_outs.map fun txOut => txOut.amount).sum

/-- The spec's `validate_coinbase`: exactly one input with empty `tx_out_id`
and `tx_out_index` equal to the block index; exactly one output of
`COINBASE_AMOUNT`; id recomputation matches. -/
def validate_coinbase_spec (tx : Transaction) (block_index : Nat) : Prop :=
  tx.tx_ins.length = 1 ∧
  (∀ txIn ∈ tx.tx_ins, txIn.tx_out_id = "" ∧ txIn.tx_out_index = block_index) ∧
  tx.tx_outs.length = 1 ∧
  (∀ txOut ∈ tx.tx_outs, txOut.amount = COINBASE_AMOUNT) ∧
  tx.id = get_transaction_id tx.tx_ins tx.tx_outs

/-- The amended `validate_coinbase`: as `validate_coinbase_spec` but with no
condition on the input's `tx_out_id` — the source never inspects it. -/
def validate_coinbase_amended (tx : Transaction) (block_index : Nat) : Prop :=
  tx.tx_ins.length = 1 ∧
  (∀ txIn ∈ tx.tx_ins, txIn.tx_out_index = block_index) ∧
  tx.tx_outs.length = 1 ∧
  (∀ txOut ∈ tx.tx_outs, txOut.amount = COINBASE_AMOUNT) ∧
  tx.id = get_transaction_id tx.tx_ins tx.tx_outs

/-- Modelled from the spec: the timestamp band with signed comparison
semantics, `last.timestamp − 60 < candidate.timestamp < now + 60` over the
integers (spec §9, open question on timestamp underflow). -/
def get_is_valid_timestamp_signed (now : Int) (new_block previous_block : Block) : Bool :=
  decide ((previous_block.timestamp : Int) - (TIMESTAMP_INTERVAL : Int) <
      (new_block.timestamp : Int)) &&
    decide ((new_block.timestamp : Int) < now + (TIMESTAMP_INTERVAL : Int))

/-- The `(tx_out_id, tx_out_index)` pairs of all inputs across a block's
transactions, coinbase included, in order. -/
def tx_in_pair_list (transactions : List Transaction) : List (String × Nat) :=
  (transactions.flatMap fun t => t.tx_ins).map fun i => (i.tx_out_id, i.tx_out_index)

/-- The concatenated duplicate-detection keys `tx_out_id ‖ decimal index` of
all inputs across a block's transactions, in order. -/
def tx_in_key_list (transactions : List Transaction) : List String :=
  (transactions.flatMap fun t => t.tx_ins).map fun i => i.tx_out_id ++ toString i.tx_out_index

/-- The spec's description of the applied UTXO set: the old entries whose
primary key is not referenced by any input of the block, followed by one new
entry with key `(tx.id, output_index)` per output of each transaction. -/
def applied_utxo_spec (txs : List Transaction) (utxo : List UnspentTxOut) :
    List UnspentTxOut :=
  (utxo.filter fun u => ¬ (txs.flatMap fun t => t.tx_ins).any fun i =>
      i.tx_out_id == u.tx_out_id && i.tx_out_index == u.tx_out_index) ++
    txs.flatMap fun t => t.tx_outs.enum.map fun p =>
      UnspentTxOut.mk t.id p.1 p.2.address p.2.amount

/-- The spec's `should_replace`: the incoming chain is valid with the same
genesis (first block equal to the local genesis under `Block` equality, every
adjacent pair a valid succession), and its accumulated work is strictly
greater. -/
def replace_chain_spec (now : Nat) (localChain incoming : List Block) : Prop :=
  (∃ gl g0, localChain.head? = some gl ∧ incoming.head? = some g0 ∧
    Block.beq gl g0 = true) ∧
  (∀ w ∈ incoming.zip (incoming.drop 1), get_is_valid_new_block now w.2 w.1 = true) ∧
  get_accumulated_difficulty localChain < get_accumulated_difficulty incoming

/-- Total amount carried by a list of unspent outputs. -/
def sumAmounts (l : List UnspentTxOut) : Nat :=
  (l.map fun u => u.amount).sum

/-- A verifier that accepts every (address, message, signature) triple; it
stands in for ECDSA verification in concrete scenarios where each presented
signature is taken to be valid for its address and message — a state the
real scheme realizes, since every key and message admit valid signatures. -/
def verifyAlways : Verifier := fun _ _ _ => true

/-! ## Theorems -/

set_option maxRecDepth 100000

/-- The coinbase transaction of the repository's own
`test_get_is_valid_coinbase_tx`: its single input carries a **non-empty**
`tx_out_id` (a previous transaction id) and a real signature. -/
def cbTxC2 : Transaction :=
  Transaction.mk "2ffbf11ad81702d9a4b07b4a869b0ef304cdaebc7efcbb79e80942cdfef7cd0d"
    [TxIn.mk "f0ab1700e79b5f4c120062a791e7e69150577fea3ba9da15179025b3d2c061ea" 0
      "3045022100d73a8f9c7ce7fd44517ff0db38733af84a0ee1bc3ec89ed2c82dad412374057602203eac06b3c11dcb004991f39f9f23e46d3354ea6de8bfa73da8ca77adbb57988a"]
    [TxOut.mk "03cbad07a30fa3c44cf3709e005149c5b41464070c15e783589d937a071f62930b" 50]

/-- Claim C2, counterexample: `get_is_valid_coinbase_tx` accepts a
transaction whose single input has a non-empty `tx_out_id` (the repository's
own test fixture), so the claimed equivalence with the empty-`tx_out_id`
characterization fails. -/
theorem C2_counterexample :
    get_is_valid_coinbase_tx (some cbTxC2) 0 = true ∧
    ¬ validate_coinbase_spec cbTxC2 0 := by
  constructor
  · decide
  · intro h
    have hmem := h.2.1
      (TxIn.mk "f0ab1700e79b5f4c120062a791e7e69150577fea3ba9da15179025b3d2c061ea" 0
        "3045022100d73a8f9c7ce7fd44517ff0db38733af84a0ee1bc3ec89ed2c82dad412374057602203eac06b3c11dcb004991f39f9f23e46d3354ea6de8bfa73da8ca77adbb57988a")
      (by decide)
    exact absurd hmem.1 (by decide)

/-- Claim C2 (amended): `get_is_valid_coinbase_tx (Some tx) i` returns true
iff `tx` has exactly one input whose `tx_out_index` equals `i` (its
`tx_out_id` is not inspected), exactly one output whose amount equals
`COINBASE_AMOUNT = 50`, and `tx.id` equals its recomputation. -/
theorem C2_coinbase_amended (tx : Transaction) (block_index : Nat) :
    get_is_valid_coinbase_tx (some tx) block_index = true ↔
    validate_coinbase_amended tx block_index := by
  obtain ⟨tid, ins, outs⟩ := tx
  rcases ins with _ | ⟨a, _ | ⟨b, t⟩⟩ <;> rcases outs with _ | ⟨c, _ | ⟨d, s⟩⟩ <;>
    simp only [get_is_valid_coinbase_tx, validate_coinbase_amended,
      Transaction.getTransactionId, List.head?_cons, List.length_cons, List.length_nil,
      List.mem_cons, List.mem_singleton, List.not_mem_nil] <;>
    split_ifs <;> simp_all
  all_goals tauto

/-- Claim C2 witness for the amended theorem: evaluated on the concrete
coinbase fixture at block index 0. -/
theorem C2_witness :
    get_is_valid_coinbase_tx (some cbTxC2) 0 = true ↔ validate_coinbase_amended cbTxC2 0 :=
  C2_coinbase_amended cbTxC2 0

/-- Previous block with timestamp 0 (below `TIMESTAMP_INTERVAL`). -/
def c5_prev : Block := Block.mk 0 "g" "x" 0 [] 0 0

/-- Candidate block one second later. -/
def c5_new : Block := Block.mk 1 "h" "g" 1 [] 0 0

/-- Claim C5: the code's timestamp check is **not** the claimed signed
comparison. At `previous.timestamp = 0`, `candidate.timestamp = 1`,
`now = 1000`, the unsigned subtraction `0 - 60` wraps (debug builds panic
instead), so the source returns `false` where the signed band accepts. -/
theorem C5_timestamp_bug :
    get_is_valid_timestamp 1000 c5_new c5_prev = false ∧
    get_is_valid_timestamp_signed 1000 c5_new c5_prev = true := by
  constructor <;> decide

/-- Claim C9: the transaction id is the SHA-256 hex digest of the inputs'
`(tx_out_id ‖ decimal index)` strings followed by the outputs'
`(address ‖ decimal amount)` strings, and depends on nothing else: replacing
the inputs' signatures (keeping ids and indices) leaves the id unchanged. -/
theorem C9_tx_id :
    (∀ (tx_ins : List TxIn) (tx_outs : List TxOut),
      get_transaction_id tx_ins tx_outs =
        sha256hex (String.join (tx_ins.map fun t => t.tx_out_id ++ toString t.tx_out_index) ++
          String.join (tx_outs.map fun o => o.address ++ toString o.amount))) ∧
    (∀ (tx_ins tx_ins' : List TxIn) (tx_outs : List TxOut),
      tx_ins.map (fun t => (t.tx_out_id, t.tx_out_index)) =
        tx_ins'.map (fun t => (t.tx_out_id, t.tx_out_index)) →
      get_transaction_id tx_ins tx_outs = get_transaction_id tx_ins' tx_outs) := by
  constructor
  · intro tx_ins tx_outs
    rfl
  · intro tx_ins tx_ins' tx_outs h
    have hc : tx_ins.map (fun t => t.tx_out_id ++ toString t.tx_out_index) =
        tx_ins'.map (fun t => t.tx_out_id ++ toString t.tx_out_index) := by
      have := congrArg (List.map (fun p : String × Nat => p.1 ++ toString p.2)) h
      simpa [List.map_map, Function.comp] using this
    unfold get_transaction_id
    rw [hc]

/-- Claim C9 witness: two singleton input lists differing only in the
signature yield the same transaction id. -/
theorem C9_witness :
    ([TxIn.mk "a" 1 "s1"].map (fun t => (t.tx_out_id, t.tx_out_index)) =
      [TxIn.mk "a" 1 "s2"].map (fun t => (t.tx_out_id, t.tx_out_index))) ∧
    get_transaction_id [TxIn.mk "a" 1 "s1"] [] =
      get_transaction_id [TxIn.mk "a" 1 "s2"] [] :=
  ⟨by decide, C9_tx_id.2 _ _ _ (by decide)⟩

/-- `get_is_valid_new_block` reads only `index`, `hash` and `timestamp` of
the previous block. -/
theorem get_is_valid_new_block_prev_congr (now : Nat) (nb p p' : Block)
    (h1 : p.index = p'.index) (h2 : p.hash = p'.hash) (h3 : p.timestamp = p'.timestamp) :
    get_is_valid_new_block now nb p = get_is_valid_new_block now nb p' := by
  unfold get_is_valid_new_block get_is_valid_timestamp
  rw [h1, h2, h3]

/-- `Block.beq` reads only the five compared fields of either side. -/
theorem block_beq_congr (a a' b b' : Block)
    (ha1 : a.index = a'.index) (ha2 : a.hash = a'.hash)
    (ha3 : a.previous_hash = a'.previous_hash) (ha4 : a.timestamp = a'.timestamp)
    (ha5 : a.data = a'.data)
    (hb1 : b.index = b'.index) (hb2 : b.hash = b'.hash)
    (hb3 : b.previous_hash = b'.previous_hash) (hb4 : b.timestamp = b'.timestamp)
    (hb5 : b.data = b'.data) :
    Block.beq a b = Block.beq a' b' := by
  unfold Block.beq
  rw [ha1, ha2, ha3, ha4, ha5, hb1, hb2, hb3, hb4, hb5]

/-- Claim C10: `Block` equality compares only `index`, `hash`,
`previous_hash`, `timestamp` and `data`; two blocks agreeing on those are
equal regardless of `difficulty` and `nonce`, and chain validation — hence
the genesis test used by chain replacement — cannot distinguish a genesis
(on either side of the comparison) that differs only in those two fields. -/
theorem C10_block_partial_eq :
    (∀ a b : Block, a.index = b.index → a.hash = b.hash →
      a.previous_hash = b.previous_hash → a.timestamp = b.timestamp → a.data = b.data →
      Block.beq a b = true) ∧
    (∀ (now : Nat) (gen gen' : Block) (ch : List Block), gen.index = gen'.index →
      gen.hash = gen'.hash → gen.previous_hash = gen'.previous_hash →
      gen.timestamp = gen'.timestamp → gen.data = gen'.data →
      get_is_valid_chain now gen ch = get_is_valid_chain now gen' ch) ∧
    (∀ (now : Nat) (gen g g' : Block) (rest : List Block), g.index = g'.index →
      g.hash = g'.hash → g.previous_hash = g'.previous_hash →
      g.timestamp = g'.timestamp → g.data = g'.data →
      get_is_valid_chain now gen (g :: rest) = get_is_valid_chain now gen (g' :: rest)) := by
  refine ⟨?_, ?_, ?_⟩
  · intro a b h1 h2 h3 h4 h5
    simp [Block.beq, h1, h2, h3, h4, h5]
  · intro now gen gen' ch h1 h2 h3 h4 h5
    cases ch with
    | nil => rfl
    | cons f t =>
      have hb : Block.beq gen f = Block.beq gen' f :=
        block_beq_congr gen gen' f f h1 h2 h3 h4 h5 rfl rfl rfl rfl rfl
      simp only [get_is_valid_chain, List.head?_cons, hb]
  · intro now gen g g' rest h1 h2 h3 h4 h5
    have hb : Block.beq gen g = Block.beq gen g' :=
      block_beq_congr gen gen g g' rfl rfl rfl rfl rfl h1 h2 h3 h4 h5
    cases rest with
    | nil => simp [get_is_valid_chain, hb]
    | cons r t =>
      have hv : get_is_valid_new_block now r g = get_is_valid_new_block now r g' :=
        get_is_valid_new_block_prev_congr now r g g' h1 h2 h4
      simp only [get_is_valid_chain, List.head?_cons, hb, List.length_cons,
        List.zip_cons_cons, List.drop_succ_cons, List.drop_zero, List.all_cons, hv]

/-- Claim C10 witness: two genesis blocks differing only in difficulty and
nonce are equal under `Block.beq`, and swapping them does not change the
validity of a chain. -/
theorem C10_witness :
    Block.beq (Block.mk 0 "g" "p" 5 [] 0 0) (Block.mk 0 "g" "p" 5 [] 3 7) = true ∧
    get_is_valid_chain 9 (Block.mk 0 "g" "p" 5 [] 0 0) [Block.mk 0 "g" "p" 5 [] 1 1] =
      get_is_valid_chain 9 (Block.mk 0 "g" "p" 5 [] 3 7) [Block.mk 0 "g" "p" 5 [] 1 1] :=
  ⟨C10_block_partial_eq.1 _ _ rfl rfl rfl rfl rfl,
   C10_block_partial_eq.2.1 9 _ _ _ rfl rfl rfl rfl rfl⟩

/-- `has_duplicates` holds exactly when the concatenated keys are not
pairwise distinct. -/
theorem has_duplicates_iff_not_nodup (l : List TxIn) :
    has_duplicates l = true ↔
      ¬ (l.map fun i => i.tx_out_id ++ toString i.tx_out_index).Nodup := by
  unfold has_duplicates
  rw [List.any_eq_true]
  constructor
  · rintro ⟨k, hk, hcount⟩
    rw [List.nodup_iff_count_le_one]
    push_neg
    exact ⟨k, by simpa using hcount⟩
  · intro hnd
    rw [List.nodup_iff_count_le_one] at hnd
    push_neg at hnd
    obtain ⟨k, hk⟩ := hnd
    have hmem : k ∈ l.map fun i => i.tx_out_id ++ toString i.tx_out_index := by
      rw [← List.count_pos_iff]
      omega
    exact ⟨k, hmem, by simpa using hk⟩

/-- Claim C6 (amended): the duplicate check keys on the **string
concatenation** `tx_out_id ‖ decimal index`, not on the pair itself: it
fires exactly when two keys coincide. A repeated pair always yields a
repeated key, so a block with a repeated `(tx_out_id, tx_out_index)` pair
across all its inputs is rejected — but distinct pairs with colliding
concatenations are rejected as well. -/
theorem C6_duplicates_amended (verify : Verifier) (transactions : List Transaction)
    (unspent_tx_outs : List UnspentTxOut) (block_index : Nat) :
    (has_duplicates (transactions.flatMap fun t => t.tx_ins) = true ↔
      ¬ (tx_in_key_list transactions).Nodup) ∧
    (¬ (tx_in_pair_list transactions).Nodup →
      get_is_valid_block_transactions verify transactions unspent_tx_outs block_index = false) := by
  constructor
  · exact has_duplicates_iff_not_nodup _
  · intro hpairs
    have hkeys : ¬ (tx_in_key_list transactions).Nodup := by
      intro hk
      apply hpairs
      have hmaps : tx_in_key_list transactions =
          (tx_in_pair_list transactions).map fun p => p.1 ++ toString p.2 := by
        unfold tx_in_key_list tx_in_pair_list
        rw [List.map_map]
        rfl
      rw [hmaps] at hk
      exact hk.of_map
    have hdup : has_duplicates (transactions.flatMap fun t => t.tx_ins) = true :=
      (has_duplicates_iff_not_nodup _).2 hkeys
    simp [get_is_valid_block_transactions, hdup, ite_self]

/-- A transaction used twice in a block, giving a repeated input pair. -/
def dupTxC6 : Transaction := Transaction.mk "i" [TxIn.mk "q" 0 ""] []

/-- Claim C6 witness for the amended theorem: a block whose input pair
`("q", 0)` occurs twice is rejected. -/
theorem C6_witness :
    ¬ (tx_in_pair_list [dupTxC6, dupTxC6]).Nodup ∧
    get_is_valid_block_transactions verifyAlways [dupTxC6, dupTxC6] [] 0 = false :=
  ⟨by decide, (C6_duplicates_amended verifyAlways [dupTxC6, dupTxC6] [] 0).2 (by decide)⟩

/-- Coinbase of the colliding-key block: input pair `("", 12)`, key `"12"`. -/
def cbTxC6 : Transaction :=
  Transaction.mk "77f4fbf775b1c51dcc0d44c06de994f31ea4e0b643c9291cb3057f328b9a09eb"
    [TxIn.mk "" 12 ""] [TxOut.mk "a" 50]

/-- Second transaction of the colliding-key block: input pair `("1", 2)`,
key `"12"` again, although the pair differs from `("", 12)`. -/
def txC6 : Transaction :=
  Transaction.mk "914a449aa0361897488a7cf949982bef800b4cbd1df85fd546c2d80649651a1e"
    [TxIn.mk "1" 2 "s"] [TxOut.mk "d" 7]

/-- The UTXO set resolving `txC6`'s input. -/
def utxoC6 : List UnspentTxOut := [UnspentTxOut.mk "1" 2 "x" 7]

/-- Claim C6, counterexample: a block whose input pairs `("", 12)` and
`("1", 2)` are pairwise distinct, whose coinbase is valid and whose
non-coinbase transactions all validate, is nevertheless rejected — the
duplicate check collides the concatenated keys `"" ‖ "12"` and `"1" ‖ "2"`. -/
theorem C6_counterexample :
    (tx_in_pair_list [cbTxC6, txC6]).Nodup ∧
    get_is_valid_coinbase_tx ([cbTxC6, txC6].head?) 12 = true ∧
    (([cbTxC6, txC6].drop 1).map fun tx =>
      get_is_valid_transaction verifyAlways tx utxoC6).all (fun valid => valid) = true ∧
    get_is_valid_block_transactions verifyAlways [cbTxC6, txC6] utxoC6 12 = false := by
  refine ⟨by decide, by decide, by decide, by decide⟩

/-- The length-11 chain of the spec's first concrete scenario: 10 blocks
mined in quick succession (equal timestamps) on a difficulty-0 genesis. -/
def c7chain : List Block :=
  (List.range 11).map fun i => Block.mk i "h" "p" 1655831820 [] 0 0

/-- Claim C7: difficulty retargeting. Off the adjustment boundary (last index
0 or not divisible by 10) the latest block's difficulty is returned.  On the
boundary, with `prev` the block 10 positions from the end, `taken` the
timestamp difference and `expected = 100`, the difficulty is `prev + 1` when
`taken < 50`, `prev − 1` when `taken > 200`, else `prev` (side conditions
keep the `usize` arithmetic away from wrapping).  Consequently the concrete
quick-mining scenario on a difficulty-0 genesis yields difficulty 1 at
length 11. -/
theorem C7_get_difficulty :
    (∀ (chain : List Block) (latest : Block), get_latest_block chain = some latest →
      latest.index % DIFFICULTY_ADJUSTMENT_INTERVAL ≠ 0 ∨ latest.index = 0 →
      get_difficulty chain = some latest.difficulty) ∧
    (∀ (chain : List Block) (latest prev : Block),
      get_latest_block chain = some latest →
      latest.index % DIFFICULTY_ADJUSTMENT_INTERVAL = 0 → latest.index ≠ 0 →
      DIFFICULTY_ADJUSTMENT_INTERVAL ≤ chain.length → chain.length < USIZE_MOD →
      chain.get? (chain.length - DIFFICULTY_ADJUSTMENT_INTERVAL) = some prev →
      prev.timestamp ≤ latest.timestamp → latest.timestamp < USIZE_MOD →
      prev.difficulty + 1 < USIZE_MOD →
      (BLOCK_GENERATION_INTERVAL * DIFFICULTY_ADJUSTMENT_INTERVAL * 2 <
        latest.timestamp - prev.timestamp → 1 ≤ prev.difficulty) →
      get_difficulty chain = some (
        if latest.timestamp - prev.timestamp <
            BLOCK_GENERATION_INTERVAL * DIFFICULTY_ADJUSTMENT_INTERVAL / 2 then
          prev.difficulty + 1
        else if BLOCK_GENERATION_INTERVAL * DIFFICULTY_ADJUSTMENT_INTERVAL * 2 <
            latest.timestamp - prev.timestamp then
          prev.difficulty - 1
        else prev.difficulty)) ∧
    (c7chain.length = 11 ∧ get_difficulty c7chain = some 1) := by
  have husub : ∀ a b : Nat, b ≤ a → a < USIZE_MOD → usizeSub a b = a - b := by
    intro a b hba ha
    unfold usizeSub USIZE_MOD at *
    omega
  refine ⟨?_, ?_, by decide, by decide⟩
  · intro chain latest hl hcond
    unfold get_difficulty
    simp only [hl]
    rw [if_pos hcond]
  · intro chain latest prev hl hmod hne hlen hlenW hprev hts hcap hdcap hdec
    have hidx : usizeSub chain.length DIFFICULTY_ADJUSTMENT_INTERVAL =
        chain.length - DIFFICULTY_ADJUSTMENT_INTERVAL :=
      husub _ _ hlen hlenW
    have htaken : usizeSub latest.timestamp prev.timestamp =
        latest.timestamp - prev.timestamp :=
      husub _ _ hts hcap
    unfold get_difficulty
    simp only [hl, hidx, hprev, htaken]
    rw [if_neg (by push_neg; exact ⟨hmod, hne⟩)]
    by_cases hfast : latest.timestamp - prev.timestamp <
        BLOCK_GENERATION_INTERVAL * DIFFICULTY_ADJUSTMENT_INTERVAL / 2
    · rw [if_pos hfast, Nat.mod_eq_of_lt hdcap, if_pos hfast]
    · rw [if_neg hfast, if_neg hfast]
      by_cases hslow : BLOCK_GENERATION_INTERVAL * DIFFICULTY_ADJUSTMENT_INTERVAL * 2 <
          latest.timestamp - prev.timestamp
      · rw [if_pos hslow, husub _ _ (hdec hslow) (by unfold USIZE_MOD at *; omega),
          if_pos hslow]
      · rw [if_neg hslow, if_neg hslow]

/-- A chain at an adjustment boundary: 10 blocks, last index 10, elapsed
time 90 seconds — difficulty stays at the previous adjustment value 2. -/
def c7wchain : List Block :=
  (List.range 10).map fun i => Block.mk (i + 1) "h" "p" (100 + 10 * i) [] 2 0

/-- Claim C7 witness: the adjustment branch evaluated on a concrete
10-block chain. -/
theorem C7_witness : get_difficulty c7wchain = some 2 := by
  have h := C7_get_difficulty.2.1 c7wchain (Block.mk 10 "h" "p" 190 [] 2 0)
    (Block.mk 1 "h" "p" 100 [] 2 0) (by decide) (by decide) (by decide) (by decide)
    (by decide) (by decide) (by decide) (by decide) (by decide) (by decide)
  simpa using h

/-- `sumAmounts` distributes over cons. -/
theorem sumAmounts_cons (u : UnspentTxOut) (l : List UnspentTxOut) :
    sumAmounts (u :: l) = u.amount + sumAmounts l := by
  simp [sumAmounts]

/-- The selection loop errors exactly when the remaining list is empty or
cannot lift the running sum up to the requested amount. -/
theorem find_tx_outs_go_error_iff (amount : Nat) :
    ∀ (l : List UnspentTxOut) (current : Nat) (included : List UnspentTxOut),
      find_tx_outs_go amount l current included = Except.error (AppError.mk 2003) ↔
        l = [] ∨ current + sumAmounts l < amount := by
  intro l
  induction l with
  | nil =>
    intro current included
    simp [find_tx_outs_go]
  | cons u rest ih =>
    intro current included
    rw [find_tx_outs_go]
    by_cases h : amount ≤ current + u.amount
    · rw [if_pos h]
      simp only [List.cons_ne_nil, false_or, sumAmounts_cons]
      constructor
      · intro hcontra
        exact absurd hcontra (by simp)
      · intro hlt
        omega
    · rw [if_neg h, ih]
      rcases rest with _ | ⟨v, vs⟩
      · simp only [sumAmounts_cons, List.cons_ne_nil, false_or, true_or, true_iff]
        have hnil : sumAmounts ([] : List UnspentTxOut) = 0 := rfl
        omega
      · simp only [List.cons_ne_nil, false_or, sumAmounts_cons]
        omega

/-- The selection loop returns the accumulator extended by the shortest
nonempty prefix that lifts the running sum to the requested amount, with the
excess as change. -/
theorem find_tx_outs_go_ok (amount : Nat) :
    ∀ (l : List UnspentTxOut) (current : Nat) (included : List UnspentTxOut) (k : Nat),
      k < l.length →
      amount ≤ current + sumAmounts (l.take (k + 1)) →
      (∀ j, j < k → current + sumAmounts (l.take (j + 1)) < amount) →
      find_tx_outs_go amount l current included =
        Except.ok (included ++ l.take (k + 1),
          current + sumAmounts (l.take (k + 1)) - amount) := by
  intro l
  induction l with
  | nil =>
    intro current included k hk
    simp at hk
  | cons u rest ih =>
    intro current included k hk hge hmin
    rw [find_tx_outs_go]
    cases k with
    | zero =>
      have h1 : amount ≤ current + u.amount := by
        simpa [sumAmounts_cons, sumAmounts] using hge
      rw [if_pos h1]
      simp [sumAmounts_cons, sumAmounts]
    | succ k =>
      have h0 : current + u.amount < amount := by
        have := hmin 0 (Nat.succ_pos k)
        simpa [sumAmounts_cons, sumAmounts] using this
      rw [if_neg (by omega)]
      have hge' : amount ≤ current + u.amount + sumAmounts (rest.take (k + 1)) := by
        rw [List.take_succ_cons, sumAmounts_cons] at hge
        omega
      have hmin' : ∀ j, j < k → current + u.amount + sumAmounts (rest.take (j + 1)) < amount := by
        intro j hj
        have := hmin (j + 1) (by omega)
        rw [List.take_succ_cons, sumAmounts_cons] at this
        omega
      have hrec := ih (current + u.amount) (included ++ [u]) k (by simpa using hk) hge' hmin'
      rw [hrec, List.take_succ_cons, sumAmounts_cons]
      simp only [Except.ok.injEq, Prod.mk.injEq]
      constructor
      · simp
      · omega

/-- Claim C8 (amended): `find_tx_outs_for_amount` returns the shortest
**nonempty** prefix whose amounts sum to at least `amount`, with change
`sum − amount`, and fails with the insufficient-funds error exactly when the
list is empty or its total is below `amount` (for `amount ≥ 1` that is
exactly "no prefix reaches `amount`"; at `amount = 0` the loop still
consumes one output, and errors on an empty list). -/
theorem C8_selection_amended :
    (∀ (my_unspent_tx_outs : List UnspentTxOut) (amount : Nat),
      find_tx_outs_for_amount my_unspent_tx_outs amount =
          Except.error (AppError.mk 2003) ↔
        my_unspent_tx_outs = [] ∨ sumAmounts my_unspent_tx_outs < amount) ∧
    (∀ (my_unspent_tx_outs : List UnspentTxOut) (amount k : Nat),
      k < my_unspent_tx_outs.length →
      amount ≤ sumAmounts (my_unspent_tx_outs.take (k + 1)) →
      (∀ j, j < k → sumAmounts (my_unspent_tx_outs.take (j + 1)) < amount) →
      find_tx_outs_for_amount my_unspent_tx_outs amount =
        Except.ok (my_unspent_tx_outs.take (k + 1),
          sumAmounts (my_unspent_tx_outs.take (k + 1)) - amount)) := by
  constructor
  · intro l amount
    have := find_tx_outs_go_error_iff amount l 0 []
    simpa [find_tx_outs_for_amount] using this
  · intro l amount k hk hge hmin
    have := find_tx_outs_go_ok amount l 0 [] k hk (by simpa using hge)
      (fun j hj => by simpa using hmin j hj)
    simpa [find_tx_outs_for_amount] using this

/-- Claim C8, counterexample: at `amount = 0` on an empty list the total
(`0`) is not below the requested amount — per the claim selection must
succeed with the empty prefix — yet the source returns the
insufficient-funds error. -/
theorem C8_counterexample :
    find_tx_outs_for_amount [] 0 = Except.error (AppError.mk 2003) ∧
    ¬ (sumAmounts ([] : List UnspentTxOut) < 0) := by
  constructor
  · rfl
  · decide

/-- Claim C8 witness: two 50-coin outputs against a request of 70 select
both outputs with change 30. -/
theorem C8_witness :
    find_tx_outs_for_amount
        [UnspentTxOut.mk "t" 0 "w" 50, UnspentTxOut.mk "u" 0 "w" 50] 70 =
      Except.ok ([UnspentTxOut.mk "t" 0 "w" 50, UnspentTxOut.mk "u" 0 "w" 50], 30) := by
  have h := C8_selection_amended.2
    [UnspentTxOut.mk "t" 0 "w" 50, UnspentTxOut.mk "u" 0 "w" 50] 70 1
    (by decide) (by decide) (by decide)
  simpa using h

/-- `get_is_valid_tx_in` succeeds exactly on the first `tx_out_id`-matching
entry whose address verifies the signature. -/
theorem get_is_valid_tx_in_iff (verify : Verifier) (tx_in : TxIn) (transaction : Transaction)
    (unspent_tx_outs : List UnspentTxOut) :
    get_is_valid_tx_in verify tx_in transaction unspent_tx_outs = true ↔
      ∃ u, unspent_tx_outs.find? (fun v => v.tx_out_id == tx_in.tx_out_id) = some u ∧
        verify u.address transaction.id tx_in.signature = true := by
  unfold get_is_valid_tx_in
  cases h : unspent_tx_outs.find? (fun v => v.tx_out_id == tx_in.tx_out_id) <;> simp [h]

/-- Claim C1 (amended): `get_is_valid_transaction` returns true iff the id
recomputes, every input finds some **`tx_out_id`-matching** unspent output
(first match, index ignored) whose address verifies its signature over
`tx.id`, and the input amounts — resolved by the full primary key, `0` when
absent — sum to the output total. -/
theorem C1_validate_tx_amended (verify : Verifier) (tx : Transaction)
    (utxo : List UnspentTxOut) :
    get_is_valid_transaction verify tx utxo = true ↔ validate_tx_amended verify tx utxo := by
  unfold get_is_valid_transaction validate_tx_amended
  simp only [ne_eq]
  constructor
  · intro hcode
    split_ifs at hcode with h1 h2 h3
    refine ⟨?_, ?_, ?_⟩
    · intro txIn hmem
      rw [← get_is_valid_tx_in_iff]
      simp only [List.any_eq_true, decide_eq_true_eq] at h2
      push_neg at h2
      exact h2 txIn hmem
    · rw [beq_iff_eq] at h1
      exact h1.symm
    · rw [List.sum_eq_foldl, List.sum_eq_foldl]
      exact h3.symm
  · rintro ⟨hin, hid, hsum⟩
    have hfold : (tx.tx_outs.map fun o => o.amount).foldl (fun s a => s + a) 0 =
        (tx.tx_ins.map fun i => get_tx_in_amount i utxo).foldl (fun s a => s + a) 0 := by
      rw [← List.sum_eq_foldl, ← List.sum_eq_foldl]
      exact hsum.symm
    have hids : ¬¬((tx.getTransactionId == tx.id) = true) := by
      rw [beq_iff_eq]
      exact not_not_intro hid.symm
    have hanyf : ¬((tx.tx_ins.any fun i =>
        decide (¬ get_is_valid_tx_in verify i tx utxo = true)) = true) := by
      intro hex
      obtain ⟨x, hx, hbad⟩ := List.any_eq_true.1 hex
      exact absurd ((get_is_valid_tx_in_iff verify x tx utxo).2 (hin x hx))
        (of_decide_eq_true hbad)
    rw [if_neg hids, if_neg hanyf, if_neg (not_not_intro hfold)]

/-- Claim C1, counterexample: the input `("aa", 1)` resolves to **no** unspent
output under the primary key — the only entry is `("aa", 0)` — yet
`get_is_valid_transaction` accepts: the signature lookup matches on
`tx_out_id` alone (finding the `("aa", 0)` entry), and the amount check sums
the unresolved input as `0`, which matches the empty output list.  The
claimed equivalence with primary-key resolution therefore fails. -/
theorem C1_counterexample :
    get_is_valid_transaction verifyAlways (Transaction.generate [TxIn.mk "aa" 1 "s"] [])
        [UnspentTxOut.mk "aa" 0 "q" 0] = true ∧
    ¬ validate_tx_spec verifyAlways (Transaction.generate [TxIn.mk "aa" 1 "s"] [])
        [UnspentTxOut.mk "aa" 0 "q" 0] := by
  constructor
  · decide
  · intro h
    rcases h.1 (TxIn.mk "aa" 1 "s") (by decide) with ⟨u, hu, -, hidx, -⟩
    simp only [List.mem_singleton] at hu
    subst hu
    exact absurd hidx (by decide)

/-- `get_is_valid_chain` holds exactly when the first block equals the
genesis argument under `Block.beq` and every adjacent pair validates. -/
theorem get_is_valid_chain_iff (now : Nat) (genesis_block : Block) (blockchain : List Block) :
    get_is_valid_chain now genesis_block blockchain = true ↔
      (∃ g0, blockchain.head? = some g0 ∧ Block.beq genesis_block g0 = true) ∧
      ∀ w ∈ blockchain.zip (blockchain.drop 1), get_is_valid_new_block now w.2 w.1 = true := by
  cases blockchain with
  | nil => simp [get_is_valid_chain]
  | cons f t =>
    simp only [get_is_valid_chain, List.head?_cons, Option.some.injEq]
    by_cases hb : Block.beq genesis_block f = true
    · rw [if_neg (not_not_intro hb)]
      cases t with
      | nil => simp [hb]
      | cons r rest =>
        simp only [List.length_cons, List.drop_succ_cons, List.drop_zero,
          List.zip_cons_cons, List.all_eq_true]
        constructor
        · intro hall
          refine ⟨⟨f, rfl, hb⟩, ?_⟩
          intro w hw
          rcases hall with hall
          rw [if_neg (by simp)] at hall
          exact List.all_eq_true.1 hall w hw
        · rintro ⟨-, hall⟩
          rw [if_neg (by simp)]
          exact List.all_eq_true.2 hall
    · rw [if_pos hb]
      constructor
      · intro hcontra
        exact absurd hcontra (by simp)
      · rintro ⟨⟨g0, hg0, hbeq⟩, -⟩
        rw [← hg0] at hbeq
        exact absurd hbeq hb

/-- Claim C4: `get_is_replace_chain` holds exactly when the incoming chain
is valid with the local chain's genesis (first block equal under `Block`
equality, adjacent pairs valid) and strictly greater accumulated work
`Σ 2^difficulty`; in particular chains of equal accumulated work never
replace one another, in either direction. -/
theorem C4_replace_chain (now : Nat) (blockchain new_blockchain : List Block)
    (h : blockchain ≠ []) :
    (get_is_replace_chain now blockchain new_blockchain = some true ↔
      replace_chain_spec now blockchain new_blockchain) ∧
    (get_accumulated_difficulty blockchain = get_accumulated_difficulty new_blockchain →
      get_is_replace_chain now blockchain new_blockchain ≠ some true ∧
      get_is_replace_chain now new_blockchain blockchain ≠ some true) := by
  obtain ⟨gl, rest, rfl⟩ : ∃ gl rest, blockchain = gl :: rest := by
    cases blockchain with
    | nil => exact absurd rfl h
    | cons a t => exact ⟨a, t, rfl⟩
  constructor
  · rw [get_is_replace_chain]
    simp only [List.head?_cons, Option.some.injEq]
    rw [Bool.and_eq_true, decide_eq_true_eq, get_is_valid_chain_iff]
    unfold replace_chain_spec
    simp only [List.head?_cons, Option.some.injEq]
    constructor
    · rintro ⟨⟨⟨g0, hg0, hbeq⟩, hall⟩, hacc⟩
      exact ⟨⟨gl, g0, rfl, hg0, hbeq⟩, hall, hacc⟩
    · rintro ⟨⟨gl', g0, hgl, hg0, hbeq⟩, hall, hacc⟩
      subst hgl
      exact ⟨⟨⟨g0, hg0, hbeq⟩, hall⟩, hacc⟩
  · intro hacc
    constructor
    · rw [get_is_replace_chain]
      simp only [List.head?_cons]
      intro hcontra
      simp only [Option.some.injEq, Bool.and_eq_true, decide_eq_true_eq] at hcontra
      exact absurd hcontra.2 (by rw [hacc]; exact lt_irrefl _)
    · cases new_blockchain with
      | nil =>
        rw [get_is_replace_chain]
        simp
      | cons n0 nrest =>
        rw [get_is_replace_chain]
        simp only [List.head?_cons]
        intro hcontra
        simp only [Option.some.injEq, Bool.and_eq_true, decide_eq_true_eq] at hcontra
        exact absurd hcontra.2 (by rw [hacc]; exact lt_irrefl _)

/-- A one-block local chain used to instantiate the replacement theorem. -/
def c4wchain : List Block := [Block.mk 0 "g" "p" 5 [] 0 0]

/-- Claim C4 witness: the replacement rule evaluated with an identical
incoming chain — equal accumulated work, so no replacement either way. -/
theorem C4_witness :
    c4wchain ≠ [] ∧
    ((get_is_replace_chain 9 c4wchain c4wchain = some true ↔
        replace_chain_spec 9 c4wchain c4wchain) ∧
     (get_accumulated_difficulty c4wchain = get_accumulated_difficulty c4wchain →
        get_is_replace_chain 9 c4wchain c4wchain ≠ some true ∧
        get_is_replace_chain 9 c4wchain c4wchain ≠ some true)) :=
  ⟨by decide, C4_replace_chain 9 c4wchain c4wchain (by decide)⟩

/-- The first match over a mapped list is absent exactly when no element
satisfies the composed predicate. -/
theorem isNone_find?_map {α β : Type} (f : α → β) (p : β → Bool) (l : List α) :
    ((l.map f).find? p).isNone = !(l.any fun x => p (f x)) := by
  induction l with
  | nil => rfl
  | cons x xs ih =>
    simp only [List.map_cons, List.any_cons]
    by_cases h : p (f x) = true
    · rw [List.find?_cons_of_pos _ h]
      simp [h]
    · rw [List.find?_cons_of_neg _ h, ih]
      simp [h]

/-- `update_unspent_tx_outs` computes exactly the spec's applied UTXO set:
old entries whose primary key no block input references, then one new entry
per output keyed `(tx.id, output_index)`. -/
theorem update_unspent_tx_outs_eq_spec (txs : List Transaction) (utxo : List UnspentTxOut) :
    update_unspent_tx_outs txs utxo = applied_utxo_spec txs utxo := by
  have hfil : (utxo.filter fun u =>
      (find_unspent_tx_out u.tx_out_id u.tx_out_index
        (((txs.flatMap fun t => t.tx_ins).map fun tx_in =>
          UnspentTxOut.mk tx_in.tx_out_id tx_in.tx_out_index "" 0))).isNone) =
      (utxo.filter fun u => ¬ (txs.flatMap fun t => t.tx_ins).any fun i =>
        i.tx_out_id == u.tx_out_id && i.tx_out_index == u.tx_out_index) := by
    apply List.filter_congr
    intro u hu
    unfold find_unspent_tx_out
    rw [isNone_find?_map, Bool.eq_iff_iff]
    simp [List.any_eq_true]
  unfold update_unspent_tx_outs applied_utxo_spec
  simp only [hfil]

/-- Claim C3: `add_block` is atomic.  On a non-empty chain it always
produces a result; whenever any validation step fails (the structural,
succession, linkage, timestamp and hash checks inside
`get_is_valid_new_block`, or the block-transaction validation inside the
transaction apply) it returns an error and the state — chain, UTXO set and
pool — is exactly the input state; when every step succeeds it returns ok,
the block is appended, the UTXO set becomes the applied result (referenced
primary keys removed, one `(tx.id, output_index)` entry added per output)
and the pool is its reconciliation against the new UTXO set. -/
theorem C3_add_block_atomic (verify : Verifier) (now : Nat) (st : NodeState) (new_block : Block)
    (h : st.blockchain ≠ []) :
    ∃ r, add_block verify now st new_block = some r ∧
      (((∃ e, r.1 = Except.error e) ∧ r.2 = st) ∨
       (r.1 = Except.ok () ∧
        r.2 = NodeState.mk (st.blockchain ++ [new_block])
          (applied_utxo_spec new_block.data st.unspent_tx_outs)
          (update_transaction_pool st.transaction_pool
            (applied_utxo_spec new_block.data st.unspent_tx_outs)))) := by
  obtain ⟨latest, hl⟩ : ∃ latest, get_latest_block st.blockchain = some latest := by
    unfold get_latest_block
    cases hx : st.blockchain.getLast? with
    | none => exact absurd (List.getLast?_eq_none_iff.mp hx) h
    | some b => exact ⟨b, rfl⟩
  unfold add_block
  simp only [hl]
  by_cases hv : get_is_valid_new_block now new_block latest = true
  · rw [if_neg (not_not_intro hv)]
    unfold process_transactions
    by_cases hb : get_is_valid_block_transactions verify new_block.data st.unspent_tx_outs
        new_block.index = true
    · rw [if_pos hb]
      refine ⟨_, rfl, Or.inr ⟨rfl, ?_⟩⟩
      simp only [update_unspent_tx_outs_eq_spec]
    · rw [if_neg hb]
      exact ⟨_, rfl, Or.inl ⟨⟨_, rfl⟩, rfl⟩⟩
  · rw [if_pos hv]
    exact ⟨_, rfl, Or.inl ⟨⟨_, rfl⟩, rfl⟩⟩

/-- A one-block node state for the atomicity witness. -/
def c3state : NodeState := NodeState.mk [Block.mk 0 "g" "x" 0 [] 0 0] [] []

/-- A structurally invalid candidate block (empty hash). -/
def c3block : Block := Block.mk 1 "" "g" 0 [] 0 0

/-- Claim C3 witness: `add_block` evaluated on a concrete state and a
structurally invalid block. -/
theorem C3_witness :
    c3state.blockchain ≠ [] ∧
    ∃ r, add_block verifyAlways 0 c3state c3block = some r ∧
      (((∃ e, r.1 = Except.error e) ∧ r.2 = c3state) ∨
       (r.1 = Except.ok () ∧
        r.2 = NodeState.mk (c3state.blockchain ++ [c3block])
          (applied_utxo_spec c3block.data c3state.unspent_tx_outs)
          (update_transaction_pool c3state.transaction_pool
            (applied_utxo_spec c3block.data c3state.unspent_tx_outs)))) :=
  ⟨by decide, C3_add_block_atomic verifyAlways 0 c3state c3block (by decide)⟩

end BC
